import Mathlib

/-!
Verification development for the `extranet` hours subsystem
(`extranet/models/_coder.py`): CSV parse/dump codec, the identity-based
dedup import (`csv_get_or_create`), and the `Coder` authorization wrapper.

The Python source is shallowly embedded below.  Pure helpers become Lean
functions; the database is an explicit `Db` state threaded through the
dedup import; the external collaborators (`User`, `Project`, `Repository`,
`Issue` lookups, which the spec declares out of scope) are fields of an
`Env` record of lookup functions.  Timestamps (`created_at`/`updated_at`)
are not modelled; all stated properties are "modulo timestamps".
-/

/-! ### Python string helpers -/

/-- Whitespace characters stripped by Python 2 `str.strip()`. -/
def isPySpace (c : Char) : Bool :=
  c = ' ' || c = '\t' || c = '\n' || c = '\r' || c.toNat = 11 || c.toNat = 12

/-- Python `str.strip()` on a character list. -/
def pyStrip (cs : List Char) : List Char :=
  ((cs.dropWhile isPySpace).reverse.dropWhile isPySpace).reverse

/-- ASCII-only lowercasing of one character (Python 2 `str.lower()` on bytes). -/
def asciiLowerChar (c : Char) : Char :=
  if 'A' ≤ c ∧ c ≤ 'Z' then Char.ofNat (c.toNat + 32) else c

/-- ASCII-only lowercasing of a character list. -/
def asciiLower (cs : List Char) : List Char := cs.map asciiLowerChar

/-- Python `s.split(',')`: split on every comma, keeping empty pieces
(`"".split(',') == ['']`). -/
def splitComma : List Char → List (List Char)
  | [] => [[]]
  | ',' :: rest => [] :: splitComma rest
  | c :: rest =>
    match splitComma rest with
    | [] => [[c]]
    | g :: gs => (c :: g) :: gs

/-- Numeric value of a digit character. -/
def digitVal (c : Char) : Nat := c.toNat - 48

/-- Numeric value of a digit list, most significant first. -/
def natOfDigits (cs : List Char) : Nat :=
  cs.foldl (fun a c => a * 10 + digitVal c) 0

/-- Greedily take one or two leading digits (the behaviour of `strptime`
numeric directives such as `%H`, `%M`, `%m`, `%d`: one- or two-digit
numbers, two digits preferred). -/
def take12 : List Char → Option (Nat × List Char)
  | [] => none
  | [c] => if c.isDigit then some (digitVal c, []) else none
  | c1 :: c2 :: rest =>
    if c1.isDigit then
      if c2.isDigit then some (digitVal c1 * 10 + digitVal c2, rest)
      else some (digitVal c1, c2 :: rest)
    else none

/-- Take exactly four leading digits (the `strptime` `%Y` directive). -/
def take4 : List Char → Option (Nat × List Char)
  | a :: b :: c :: d :: rest =>
    if a.isDigit && b.isDigit && c.isDigit && d.isDigit then
      some (natOfDigits [a, b, c, d], rest)
    else none
  | _ => none

/-- Intercalate a separator between strings (own definition, structural
recursion so that concrete witnesses evaluate in the kernel). -/
def joinWith (sep : String) : List String → String
  | [] => ""
  | [s] => s
  | s :: rest => s ++ sep ++ joinWith sep rest

/-- Zero-pad a number to two digits (`strftime` `%H`, `%M`, `%m`, `%d`). -/
def pad2 (n : Nat) : String := if n < 10 then "0" ++ Nat.repr n else Nat.repr n

/-- Zero-pad a number to four digits (`strftime` `%Y`). -/
def pad4 (n : Nat) : String :=
  if n < 10 then "000" ++ Nat.repr n
  else if n < 100 then "00" ++ Nat.repr n
  else if n < 1000 then "0" ++ Nat.repr n
  else Nat.repr n

/-! ### Dates (`%Y-%m-%d`, `datetime.date` validation) -/

/-- Calendar date as produced by `datetime.datetime.strptime(x, '%Y-%m-%d').date()`. -/
structure Date where
  year : Nat
  month : Nat
  day : Nat
deriving DecidableEq, Repr, Inhabited

/-- Gregorian leap-year rule used by `datetime`. -/
def isLeapYear (y : Nat) : Bool := y % 4 = 0 && (y % 100 ≠ 0 || y % 400 = 0)

/-- Days in a month, as validated by the `datetime.date` constructor. -/
def daysInMonth (y m : Nat) : Nat :=
  if m = 2 then (if isLeapYear y then 29 else 28)
  else if m = 4 ∨ m = 6 ∨ m = 9 ∨ m = 11 then 30
  else 31

/-- Embedding of `datetime.datetime.strptime(date, '%Y-%m-%d').date()`:
four-digit year, one-or-two-digit month and day, full-string match, then
calendar validation by the `datetime` constructor (year at least 1). -/
def parseDate (s : String) : Option Date :=
  match take4 s.toList with
  | some (y, '-' :: r1) =>
    match take12 r1 with
    | some (m, '-' :: r2) =>
      match take12 r2 with
      | some (d, []) =>
        if 1 ≤ y ∧ 1 ≤ m ∧ m ≤ 12 ∧ 1 ≤ d ∧ d ≤ daysInMonth y m then
          some ⟨y, m, d⟩
        else none
      | _ => none
    | _ => none
  | _ => none

/-- Embedding of `date.strftime('%Y-%m-%d')`. -/
def formatDate (d : Date) : String :=
  pad4 d.year ++ "-" ++ pad2 d.month ++ "-" ++ pad2 d.day

/-! ### Times (`parse_time`, the two `TIME_FORMATS`) -/

/-- Time of day as produced by `datetime.time(h, m, s)`. -/
structure Time where
  hour : Nat
  minute : Nat
  second : Nat
deriving DecidableEq, Repr, Inhabited

/-- The two members of `HoursManager.TIME_FORMATS`, in source order:
`'%H:%M'` (24-hour) and `'%I:%M:%S %p'` (12-hour). -/
inductive TimeFmt where
  | h24
  | h12ampm
deriving DecidableEq, Repr, Inhabited

/-- Embedding of `time.strptime(x, '%H:%M')`, returning the matched
`(tm_hour, tm_min, tm_sec)` fields: one-or-two-digit hour up to 23,
one-or-two-digit minute up to 59, nothing left over, seconds zero. -/
def strptimeH24 (cs : List Char) : Option (Nat × Nat × Nat) :=
  match take12 cs with
  | some (hh, ':' :: r1) =>
    match take12 r1 with
    | some (mm, []) => if hh ≤ 23 ∧ mm ≤ 59 then some (hh, mm, 0) else none
    | _ => none
  | _ => none

/-- Skip one or more whitespace characters (a literal space in a `strptime`
format matches `\s+`). -/
def dropWs1 : List Char → Option (List Char)
  | [] => none
  | c :: rest => if isPySpace c then some (rest.dropWhile isPySpace) else none

/-- Embedding of `time.strptime(x, '%I:%M:%S %p')`: hour 1–12, minute up to
59, second up to 61 (leap seconds pass `%S`), whitespace, then a
case-insensitive AM/PM marker; `%p` folds the hour onto the 24-hour clock. -/
def strptimeI12 (cs : List Char) : Option (Nat × Nat × Nat) :=
  match take12 cs with
  | some (hh, ':' :: r1) =>
    match take12 r1 with
    | some (mm, ':' :: r2) =>
      match take12 r2 with
      | some (ss, rest) =>
        match dropWs1 rest with
        | some rest2 =>
          if 1 ≤ hh ∧ hh ≤ 12 ∧ mm ≤ 59 ∧ ss ≤ 61 then
            match asciiLower rest2 with
            | ['a', 'm'] => some ((if hh = 12 then 0 else hh), mm, ss)
            | ['p', 'm'] => some ((if hh = 12 then 12 else hh + 12), mm, ss)
            | _ => none
          else none
        | none => none
      | _ => none
    | _ => none
  | _ => none

/-- One round of the loop body in `parse_time`: `time.strptime(x, frmt)`
followed by the `datetime.time(t.tm_hour, t.tm_min, t.tm_sec)` constructor,
whose `ValueError` (for example on leap seconds) is swallowed by the bare
`except`. -/
def tryTimeFormat (x : String) (f : TimeFmt) : Option Time :=
  match (match f with
         | .h24 => strptimeH24 x.toList
         | .h12ampm => strptimeI12 x.toList) with
  | some (h, m, s) => if h ≤ 23 ∧ m ≤ 59 ∧ s ≤ 59 then some ⟨h, m, s⟩ else none
  | none => none

/-- First format that matches wins (the `for frmt in time_formats` loop). -/
def tryFormatsFirst (x : String) : List TimeFmt → Option Time
  | [] => none
  | f :: rest =>
    match tryTimeFormat x f with
    | some t => some t
    | none => tryFormatsFirst x rest

/-- Embedding of the module-level `parse_time(x, time_formats)`: an empty
string is falsy and yields `None`; otherwise the formats are tried in
order and a string matching none of them falls off the loop, yielding
`None`. -/
def parse_time (x : String) (time_formats : List TimeFmt) : Option Time :=
  if x = "" then none else tryFormatsFirst x time_formats

/-- The source's `HoursManager.TIME_FORMATS = ['%H:%M', '%I:%M:%S %p']`. -/
def TIME_FORMATS : List TimeFmt := [.h24, .h12ampm]

/-- Python 2 `datetime.time` truthiness: midnight (`time(0, 0, 0)`) is
falsy.  `csv_dump`'s `frmt_time = lambda t: t.strftime(...) if t else ''`
therefore also serializes midnight as the empty string. -/
def timeTruthy (t : Time) : Bool :=
  !(t.hour = 0 && t.minute = 0 && t.second = 0)

/-- Embedding of `csv_dump`'s `frmt_time` helper: `t.strftime('%H:%M')`
when `t` is truthy, `''` for `None` (and, by Python 2 truthiness, for
midnight). -/
def frmtTime : Option Time → String
  | none => ""
  | some t => if timeTruthy t then pad2 t.hour ++ ":" ++ pad2 t.minute else ""

/-! ### Decimal amounts (`decimal.Decimal`) -/

/-- Python `Decimal` restricted to the plain numeric forms that occur in
the hours column: a sign, a coefficient, and a count of fractional digits
(exponent `-frac`).  `Decimal('8.00')` is `⟨false, 800, 2⟩`. -/
structure Decimal where
  neg : Bool
  coeff : Nat
  frac : Nat
deriving DecidableEq, Repr, Inhabited

/-- Embedding of `Decimal(s)` on plain numeric strings: optional
surrounding whitespace, optional sign, digits with an optional fractional
part, at least one digit overall.  Anything else raises
`InvalidOperation` (modelled as `none`). -/
def parseDecimal (s : String) : Option Decimal :=
  let cs := pyStrip s.toList
  let (neg, r) : Bool × List Char :=
    match cs with
    | '+' :: r => (false, r)
    | '-' :: r => (true, r)
    | r => (false, r)
  let ip := r.takeWhile Char.isDigit
  match r.dropWhile Char.isDigit with
  | [] => if ip = [] then none else some ⟨neg, natOfDigits ip, 0⟩
  | '.' :: r3 =>
    let fp := r3.takeWhile Char.isDigit
    if r3.dropWhile Char.isDigit = [] ∧ (ip ≠ [] ∨ fp ≠ []) then
      some ⟨neg, natOfDigits (ip ++ fp), fp.length⟩
    else none
  | _ => none

/-- Embedding of `str(Decimal)` (scientific notation never arises for
exponents in `[-frac, 0]`): insert the decimal point `frac` digits from
the right, padding with leading zeros after `0.` as needed. -/
def decimalStr (d : Decimal) : String :=
  let ds := Nat.toDigits 10 d.coeff
  let core :=
    if d.frac = 0 then ds
    else if d.frac < ds.length then
      ds.take (ds.length - d.frac) ++ '.' :: ds.drop (ds.length - d.frac)
    else '0' :: '.' :: (List.replicate (d.frac - ds.length) '0' ++ ds)
  String.mk (if d.neg then '-' :: core else core)

/-- Signed coefficient of a `Decimal` as an integer. -/
def decimalSval (d : Decimal) : Int :=
  if d.neg then -(d.coeff : Int) else (d.coeff : Int)

/-- Numeric value of a `Decimal` (Python `Decimal` compares, and the
database's DECIMAL column stores, by numeric value). -/
def decimalVal (d : Decimal) : ℚ :=
  (decimalSval d : ℚ) / (10 : ℚ) ^ d.frac

/-- Numeric equality of two decimals by cross multiplication (kept in
integer arithmetic so concrete instances compute; shown below to agree
with equality of the rational values). -/
def decimalNumEq (a b : Decimal) : Bool :=
  decimalSval a * (10 : Int) ^ b.frac == decimalSval b * (10 : Int) ^ a.frac

/-! ### Entities and external collaborators -/

/-- Project row (`extranet.models._needs.Project`, external to this file);
Django model equality compares primary keys. -/
structure Project where
  id : Nat
  name : String
deriving DecidableEq, Repr, Inhabited

/-- Group with its linked `customer_projects` (the Django auth `Group`,
external; named `AuthGroup` here to avoid clashing with Mathlib). -/
structure AuthGroup where
  customer_projects : List Project
deriving DecidableEq, Repr, Inhabited

/-- User identity row (`django.contrib.auth.models.User`, external), with
its group memberships. -/
structure User where
  id : Nat
  username : String
  groups : List AuthGroup
deriving DecidableEq, Repr, Inhabited

/-- Repository row (`extranet.models._issues.Repository`, external);
`distinct_name` is the value returned by `get_distinct_name()`. -/
structure Repository where
  id : Nat
  distinct_name : String
deriving DecidableEq, Repr, Inhabited

/-- Issue row (`extranet.models._issues.Issue`, external). -/
structure Issue where
  id : Nat
  number : Nat
deriving DecidableEq, Repr, Inhabited

/-- Lookup interface of the external collaborators (spec section 6: user
lookup, `Project.objects.get(name=...)`,
`Repository.objects.try_to_get_by_name`, `repository.try_to_get_issue`,
`issue.try_to_get_project`).  These components are out of scope for the
repository, so they are abstract parameters here. -/
structure Env where
  userByName : String → Option User
  projectByName : String → Option Project
  repoByName : String → Option Repository
  issueOf : Repository → String → Option Issue
  projectOfIssue : Issue → Option Project

/-- Failure modes of the codec and of `Coder` construction.  The three
`assert` statements in `_csv_parse` are Python `AssertionError`s with
distinct meanings (spec names: `ProjectMismatch`, `ProjectRequired`,
`NotAllowed`); `userNotFound` and `projectNotFound` are Django
`DoesNotExist` (spec: `NotFound`); `dateError` and `amountError` are the
fatal `ValueError` / `InvalidOperation` of `strptime` / `Decimal` (spec:
`ParseError`); `assertionError` is the `assert(parsed._tags_to_be)` guard
in `csv_get_or_create`; `badRow` is the `ValueError` of unpacking a row
of the wrong arity. -/
inductive CsvError where
  | userNotFound
  | noCoderProjects
  | atLeastOneTagRequired
  | projectNotFound
  | projectMismatch
  | projectRequired
  | dateError
  | amountError
  | notAllowed
  | assertionError
  | badRow
deriving DecidableEq, Repr, Inhabited

/-! ### Coder -/

/-- Transient authorization wrapper over a user (`class Coder`). -/
structure Coder where
  user : User
  projects : List Project
deriving DecidableEq, Repr, Inhabited

/-- The authorized-project set gathered by `Coder._iter_projects`: every
`customer_projects` entry of every group of the user, in order. -/
def coderProjects (u : User) : List Project :=
  (u.groups.map AuthGroup.customer_projects).flatten

/-- Embedding of `Coder.__init__`: store the user, compute the project
list once, and raise `NoCoderProjects` when it is empty. -/
def coderNew (u : User) : Except CsvError Coder :=
  if coderProjects u = [] then .error .noCoderProjects
  else .ok ⟨u, coderProjects u⟩

/-- Embedding of `Coder.get(username=...)`: `User.objects.get` raises
`DoesNotExist` for an unknown username, then `Coder(user)` runs. -/
def Coder.get (env : Env) (username : String) : Except CsvError Coder :=
  match env.userByName username with
  | none => .error .userNotFound
  | some u => coderNew u

/-- Embedding of `Coder.get_or_none`: the `try/except` catches exactly
`NoCoderProjects`; every other failure propagates. -/
def Coder.get_or_none (env : Env) (username : String) :
    Except CsvError (Option Coder) :=
  match Coder.get env username with
  | .error .noCoderProjects => .ok none
  | .error e => .error e
  | .ok c => .ok (some c)

/-- Python membership test `project in coder.projects` (model `==` is
primary-key comparison). -/
def pyMemB (p : Project) (l : List Project) : Bool :=
  l.any (fun q => q.id == p.id)

/-! ### Hours entries -/

/-- In-memory `Hours` model instance.  `pk` is `None` until the row is
persisted.  `tags` is the persisted many-to-many relation (tag names;
the `HourTag` table is unique on name), and `tags_to_be` is the ad-hoc
`_tags_to_be` attribute that `_csv_parse` sets on the pending object
(absent, modelled as `[]`, on instances coming from the database).
`created_at` / `updated_at` timestamps are not modelled. -/
structure Hours where
  pk : Option Nat
  coder : User
  project : Project
  date : Date
  amount : Decimal
  start_time : Option Time
  end_time : Option Time
  issue : Option Issue
  repository : Option Repository
  comment : String
  input_data_json : Option String
  tags : List String
  tags_to_be : List String
deriving DecidableEq, Repr, Inhabited

/-- Row match for `Hours.objects.get_or_create(**q)` where `q` holds the
values of the eight `HOURS_IDENTITY_FIELDS`
`(coder, project, date, amount, start_time, issue, repository, comment)`
taken from `parsed`: foreign keys compare by primary key, the DECIMAL
column by numeric value. -/
def matchesIdentity (h parsed : Hours) : Bool :=
  h.coder.id == parsed.coder.id &&
  h.project.id == parsed.project.id &&
  h.date == parsed.date &&
  decimalNumEq h.amount parsed.amount &&
  h.start_time == parsed.start_time &&
  h.issue.map Issue.id == parsed.issue.map Issue.id &&
  h.repository.map Repository.id == parsed.repository.map Repository.id &&
  h.comment == parsed.comment

/-! ### JSON blob (`json.dumps(row)`) -/

/-- Lowercase hexadecimal digit. -/
def hexDigit (n : Nat) : Char :=
  if n < 10 then Char.ofNat (48 + n) else Char.ofNat (87 + n)

/-- JSON `\uXXXX` escape for a 16-bit value. -/
def uEscape (n : Nat) : List Char :=
  ['\\', 'u', hexDigit (n / 4096 % 16), hexDigit (n / 256 % 16),
   hexDigit (n / 16 % 16), hexDigit (n % 16)]

/-- Escaping of one character by `json.dumps` with its default
`ensure_ascii=True` (everything outside printable ASCII becomes a
`\uXXXX` escape, astral characters a surrogate pair). -/
def jsonEscapeChar (c : Char) : List Char :=
  if c = '\\' then ['\\', '\\']
  else if c = '"' then ['\\', '"']
  else if c = '\n' then ['\\', 'n']
  else if c = '\r' then ['\\', 'r']
  else if c = '\t' then ['\\', 't']
  else if c.toNat = 8 then ['\\', 'b']
  else if c.toNat = 12 then ['\\', 'f']
  else if c.toNat < 32 ∨ 127 ≤ c.toNat then
    if 65536 ≤ c.toNat then
      uEscape (55296 + (c.toNat - 65536) / 1024) ++
        uEscape (56320 + (c.toNat - 65536) % 1024)
    else uEscape c.toNat
  else [c]

/-- JSON string literal for one field. -/
def jsonStr (s : String) : String :=
  "\"" ++ String.mk ((s.toList.map jsonEscapeChar).flatten) ++ "\""

/-- Embedding of `json.dumps(row)` on a list of strings (default
separators, so elements are joined by a comma and a space). -/
def jsonDumps (row : List String) : String :=
  "[" ++ joinWith ", " (row.map jsonStr) ++ "]"

/-! ### CSV codec — parse (`HoursManager._csv_parse`) -/

/-- Tag normalization in `_csv_parse`:
`filter(None, [x.strip().lower() for x in tags.split(',')])`. -/
def normalizeTags (tg : String) : List String :=
  ((splitComma tg.toList).map (fun x => String.mk (asciiLower (pyStrip x)))).filter
    (fun x => x ≠ "")

/-- Issue resolution in `_csv_parse`:
`repository = Repository.objects.try_to_get_by_name(repo)` followed by
`issue = repository.try_to_get_issue(iss) if repository else None`. -/
def issueFor (env : Env) (repo iss : String) : Option Issue :=
  match env.repoByName repo with
  | some r => env.issueOf r iss
  | none => none

/-- Project resolution in `_csv_parse`: look up the explicit name when
the field is non-empty (`Project.objects.get` raises `DoesNotExist`),
derive a project from the issue when present, `assert(a == b)` when both
exist, take `a or b`, and `assert(project)`. -/
def resolveProject (env : Env) (proj : String) (issue : Option Issue) :
    Except CsvError Project :=
  match (if proj ≠ "" then some () else none) with
  | some _ =>
    match env.projectByName proj with
    | none => .error .projectNotFound
    | some a =>
      match issue.bind env.projectOfIssue with
      | some b => if a.id = b.id then .ok a else .error .projectMismatch
      | none => .ok a
  | none =>
    match issue.bind env.projectOfIssue with
    | some b => .ok b
    | none => .error .projectRequired

/-- Body of `_csv_parse` after the coder and the nine data fields are in
hand.  The order of the failure points mirrors the source: tag
normalization, project lookup/mismatch/required, then the `Hours(...)`
constructor's keyword arguments in source order (date before amount),
and finally the `assert project in coder.projects` authorization check.
The full raw `row` is retained as `input_data_json = json.dumps(row)`.
No store is touched: the returned object is pending (`pk = none`) and
carries its tag names only in `tags_to_be`. -/
def parseAfterCoder (env : Env) (coder : Coder) (row : List String)
    (proj date strt end_ hrs tg repo iss comment : String) :
    Except CsvError Hours :=
  let tags := normalizeTags tg
  if tags = [] then .error .atLeastOneTagRequired
  else
    let repository := env.repoByName repo
    let issue := issueFor env repo iss
    match resolveProject env proj issue with
    | .error e => .error e
    | .ok project =>
      match parseDate date with
      | none => .error .dateError
      | some pdate =>
        match parseDecimal (if hrs = "" then "0" else hrs) with
        | none => .error .amountError
        | some pamount =>
          let obj : Hours :=
            { pk := none
              coder := coder.user
              project := project
              date := pdate
              amount := pamount
              start_time := parse_time strt TIME_FORMATS
              end_time := parse_time end_ TIME_FORMATS
              issue := issue
              repository := repository
              comment := comment
              input_data_json := some (jsonDumps row)
              tags := []
              tags_to_be := tags }
          if pyMemB project coder.projects then .ok obj else .error .notAllowed

/-- Embedding of `HoursManager._csv_parse(row, coder=None)`: a supplied
coder takes a nine-field row; otherwise the leading field is a username
resolved through `Coder.get`.  A row of any other arity fails unpacking
(`ValueError`). -/
def csv_parse (env : Env) (row : List String) (coder : Option Coder) :
    Except CsvError Hours :=
  match coder, row with
  | some c, [proj, date, strt, end_, hrs, tg, repo, iss, comment] =>
    parseAfterCoder env c row proj date strt end_ hrs tg repo iss comment
  | none, [usr, proj, date, strt, end_, hrs, tg, repo, iss, comment] =>
    match Coder.get env usr with
    | .error e => .error e
    | .ok c => parseAfterCoder env c row proj date strt end_ hrs tg repo iss comment
  | _, _ => .error .badRow

/-! ### CSV codec — serialize (`HoursManager.csv_dump`) -/

/-- The `values` list built by `csv_dump` (after `utf8_safe`'s
stringification, which is the identity on text, `str` on the Decimal
amount and on the issue number).  Tag source: the persisted relation when
`obj.pk` is set, else the pending `_tags_to_be`; the project foreign key
is always set, so `obj.project.name if obj.project else ''` is its name. -/
def csvDumpValues (obj : Hours) (omit_coder : Bool) : List String :=
  let tags := if obj.pk.isSome then obj.tags else obj.tags_to_be
  (if omit_coder then [] else [obj.coder.username]) ++
  [ obj.project.name,
    formatDate obj.date,
    frmtTime obj.start_time,
    frmtTime obj.end_time,
    decimalStr obj.amount,
    joinWith "," tags,
    (match obj.repository with
     | some r => r.distinct_name
     | none => ""),
    (match obj.issue with
     | some i => Nat.repr i.number
     | none => ""),
    obj.comment ]

/-- Quoting by `csv.writer(..., delimiter=';')` with the default
`QUOTE_MINIMAL`: a field holding the delimiter, the quote character or a
line-terminator character is wrapped in doubled double quotes. -/
def csvQuoteField (s : String) : String :=
  if s.toList.any (fun c => c = ';' || c = '"' || c = '\r' || c = '\n') then
    "\"" ++ String.mk ((s.toList.map
      (fun c => if c = '"' then ['"', '"'] else [c])).flatten) ++ "\""
  else s

/-- Embedding of `HoursManager.csv_dump`: one `;`-delimited CSV line with
the writer's `\r\n` terminator. -/
def csv_dump (obj : Hours) (omit_coder : Bool) : String :=
  joinWith ";" ((csvDumpValues obj omit_coder).map csvQuoteField) ++ "\r\n"

/-! ### Persistent store and the dedup import (`csv_get_or_create`) -/

/-- Relational store: the `Hours` table (rows carry their primary key),
the `HourTag` table (unique on name, so just the names), and the next
fresh primary key. -/
structure Db where
  hours : List Hours
  tagNames : List String
  nextId : Nat
deriving DecidableEq, Repr, Inhabited

/-- Well-formedness of the store: every row is persisted with a key below
`nextId`, and primary keys are unique. -/
def Db.WF (db : Db) : Prop :=
  (∀ h ∈ db.hours, ∃ i, h.pk = some i ∧ i < db.nextId) ∧
  db.hours.Pairwise (fun a b => a.pk ≠ b.pk)

/-- Fresh row created by `Hours.objects.get_or_create(**q)` on a miss:
the eight identity fields come from `q` (built from `parsed`), everything
else is at its model default (`end_time` and `input_data_json` null, no
tags). -/
def mkFresh (i : Nat) (parsed : Hours) : Hours :=
  { pk := some i
    coder := parsed.coder
    project := parsed.project
    date := parsed.date
    amount := parsed.amount
    start_time := parsed.start_time
    issue := parsed.issue
    repository := parsed.repository
    comment := parsed.comment
    end_time := none
    input_data_json := none
    tags := []
    tags_to_be := [] }

/-- Embedding of `Hours.objects.get_or_create(**q)`: fetch the first row
matching the eight identity-field values, else insert a fresh row built
from them.  Returns the row and the `created` flag. -/
def hoursGetOrCreate (db : Db) (parsed : Hours) : Db × Hours × Bool :=
  match db.hours.find? (fun h => matchesIdentity h parsed) with
  | some h => (db, h, false)
  | none =>
    ({ db with hours := db.hours ++ [mkFresh db.nextId parsed],
               nextId := db.nextId + 1 },
     mkFresh db.nextId parsed, true)

/-- Embedding of `HourTag.objects.get_or_create(name=tag_name)`: the tag
table is unique on name, so the entity is identified by the name itself. -/
def tagGetOrCreate (db : Db) (name : String) : Db × String :=
  if name ∈ db.tagNames then (db, name)
  else ({ db with tagNames := db.tagNames ++ [name] }, name)

/-- The tag-resolution loop of `csv_get_or_create`: get-or-create each
pending tag name in order, collecting the resulting entities (duplicate
names yield the same entity twice). -/
def resolveTags (db : Db) : List String → Db × List String
  | [] => (db, [])
  | n :: rest =>
    let (db1, t) := tagGetOrCreate db n
    let (db2, ts) := resolveTags db1 rest
    (db2, t :: ts)

/-- Django many-to-many assignment `obj.tags = tags`: the relation is
replaced wholesale and holds each entity at most once (the through table
is keyed on the pair), first occurrence order. -/
def m2mAssign (ts : List String) : List String :=
  ts.foldl (fun acc t => if t ∈ acc then acc else acc ++ [t]) []

/-- Embedding of `obj.save()`: write the object over the row with its
primary key. -/
def dbSave (db : Db) (obj : Hours) : Db :=
  { db with hours := db.hours.map (fun h => if h.pk == obj.pk then obj else h) }

/-- Embedding of `HoursManager.csv_get_or_create(row, coder=None)`.
Parse (any parse failure propagates before the store is touched), assert
the pending tag set is non-empty, get-or-create the canonical row from
the eight identity fields, overwrite the two `HOURS_EXTRA_FIELDS`
(`end_time`, `input_data_json`) from the parsed values whether or not the
row was created, resolve every pending tag name to a `HourTag` entity,
replace the tag relation wholesale, and save.  Returns the possibly
updated store alongside the entry and the `created` flag. -/
def csv_get_or_create (env : Env) (db : Db) (row : List String)
    (coder : Option Coder) : Db × Except CsvError (Hours × Bool) :=
  match csv_parse env row coder with
  | .error e => (db, .error e)
  | .ok parsed =>
    if parsed.tags_to_be = [] then (db, .error .assertionError)
    else
      let (db1, obj0, created) := hoursGetOrCreate db parsed
      let obj1 := { obj0 with end_time := parsed.end_time,
                              input_data_json := parsed.input_data_json }
      let (db2, tagObjs) := resolveTags db1 parsed.tags_to_be
      let obj2 := { obj1 with tags := m2mAssign tagObjs }
      (dbSave db2 obj2, .ok (obj2, created))

/-- Tag-table contents after the resolution loop: get-or-create each
pending name in order against an initial table. -/
def addTags (names : List String) (pending : List String) : List String :=
  pending.foldl (fun acc n => if n ∈ acc then acc else acc ++ [n]) names

/-- The two field-overwriting stages of `csv_get_or_create` applied to a
fetched-or-created row: the `HOURS_EXTRA_FIELDS` loop followed by the
wholesale tag assignment. -/
def applyExtrasTags (h0 parsed : Hours) : Hours :=
  { h0 with end_time := parsed.end_time
            input_data_json := parsed.input_data_json
            tags := m2mAssign parsed.tags_to_be }

/-- The row ultimately persisted by an import that created its entry. -/
def importedFresh (i : Nat) (parsed : Hours) : Hours :=
  applyExtrasTags (mkFresh i parsed) parsed

/-! ### Concrete fixtures (used by the closed witnesses below) -/

/-- Example project. -/
def acme : Project := ⟨1, "Acme"⟩

/-- A second, different project (used for the mismatch scenario). -/
def otherProj : Project := ⟨2, "Other"⟩

/-- Example repository whose distinct name equals its lookup name. -/
def repoX : Repository := ⟨1, "repo-x"⟩

/-- A second repository whose issue derives `otherProj`. -/
def repoY : Repository := ⟨2, "repo-y"⟩

/-- Example issue `#42` in `repoX`, linked to `acme`. -/
def issue42 : Issue := ⟨1, 42⟩

/-- Example issue `#7` in `repoY`, linked to `otherProj`. -/
def issue7 : Issue := ⟨2, 7⟩

/-- Example user `alice`, whose one group links `acme`. -/
def aliceUser : User := ⟨1, "alice", [⟨[acme]⟩]⟩

/-- Example user `bob`, who belongs to no groups. -/
def bobUser : User := ⟨2, "bob", []⟩

/-- Coder wrapper for `alice` (authorized on `acme` only). -/
def exCoder : Coder := ⟨aliceUser, [acme]⟩

/-- Example collaborator environment: `alice` and `bob` exist; `Acme` is
the only project name; `repo-x`/`42` resolve and derive `acme`;
`repo-y`/`7` resolve and derive `otherProj`. -/
def exEnv : Env :=
  { userByName := fun s =>
      if s = "alice" then some aliceUser
      else if s = "bob" then some bobUser
      else none
    projectByName := fun s => if s = "Acme" then some acme else none
    repoByName := fun s =>
      if s = "repo-x" then some repoX
      else if s = "repo-y" then some repoY
      else none
    issueOf := fun r s =>
      if r.id = 1 ∧ s = "42" then some issue42
      else if r.id = 2 ∧ s = "7" then some issue7
      else none
    projectOfIssue := fun i =>
      if i.id = 1 then some acme
      else if i.id = 2 then some otherProj
      else none }

/-- Empty initial store. -/
def exDb0 : Db := ⟨[], [], 0⟩

/-- Canonical nine-field row (explicit coder): the spec's section-8
example with the tags field already in normal form. -/
def exRow : List String :=
  ["Acme", "2024-03-01", "09:00", "17:00", "8.00", "dev,urgent", "repo-x",
   "42", ""]

/-- The same logical record as `exRow` with only the end time changed. -/
def exRowEnd18 : List String :=
  ["Acme", "2024-03-01", "09:00", "18:00", "8.00", "dev,urgent", "repo-x",
   "42", ""]

/-- Row with an upper-case tag (not in normal form). -/
def exRowUpperTag : List String :=
  ["Acme", "2024-03-01", "", "", "", "Dev", "", "", ""]

/-- Row with duplicate tags after normalization. -/
def exRowDupTags : List String :=
  ["Acme", "2024-03-01", "", "", "1.5", "dev, dev", "", "", ""]

/-- Row with an all-whitespace tags field. -/
def exRowNoTags : List String :=
  ["Acme", "2024-03-01", "", "", "", " , ", "", "", ""]

/-- Row naming a project unknown to `exEnv`, with no issue. -/
def exRowGhost : List String :=
  ["Ghost", "2024-03-01", "", "", "", "dev", "", "", ""]

/-- Row whose explicit project (`Acme`) disagrees with the project
derived from `repo-y` issue `7` (`otherProj`). -/
def exRowMismatch : List String :=
  ["Acme", "2024-03-01", "", "", "", "dev", "repo-y", "7", ""]

/-- Pending entry parsed from `exRow` (total projection for witnesses). -/
def exParsed : Hours :=
  match csv_parse exEnv exRow (some exCoder) with
  | .ok o => o
  | .error _ => default

/-- Result of importing `exRow` into the empty store. -/
def exImport1 : Db × Except CsvError (Hours × Bool) :=
  csv_get_or_create exEnv exDb0 exRow (some exCoder)

/-- Store after the first import of `exRow`. -/
def exDb1 : Db := exImport1.1

/-- Entry returned by the first import of `exRow`. -/
def exObj1 : Hours :=
  match exImport1.2 with
  | .ok (o, _) => o
  | .error _ => default

/-- Created flag returned by the first import of `exRow`. -/
def exCreated1 : Bool :=
  match exImport1.2 with
  | .ok (_, b) => b
  | .error _ => false

/-- Pending entry parsed from the duplicate-tags row. -/
def exParsedDup : Hours :=
  match csv_parse exEnv exRowDupTags (some exCoder) with
  | .ok o => o
  | .error _ => default

/-- Result of importing the duplicate-tags row into the empty store. -/
def exImportDup : Db × Except CsvError (Hours × Bool) :=
  csv_get_or_create exEnv exDb0 exRowDupTags (some exCoder)

/-- Entry returned by the duplicate-tags import. -/
def exObjDup : Hours :=
  match exImportDup.2 with
  | .ok (o, _) => o
  | .error _ => default

/-- Created flag returned by the duplicate-tags import. -/
def exCreatedDup : Bool :=
  match exImportDup.2 with
  | .ok (_, b) => b
  | .error _ => false

/-- Pending entry parsed from the upper-case-tag row. -/
def exObjUpper : Hours :=
  match csv_parse exEnv exRowUpperTag (some exCoder) with
  | .ok o => o
  | .error _ => default

/-- The round-trip property exactly as the specification states it: for
a row that parses, serializing the resulting entry reproduces the input
row field-for-field, the only permitted deviation (beyond dropping the
raw-input blob, which has no output column) being the normalization of
the decimal amount in field 4. -/
def roundTripModAmount (env : Env) (c : Coder) (row : List String) : Prop :=
  ∀ obj, csv_parse env row (some c) = .ok obj →
    csvDumpValues obj true =
      row.take 4 ++ [decimalStr obj.amount] ++ row.drop 5

/-! ### Helper lemmas about the parse stage -/

/-- Inversion of a successful `parseAfterCoder`: every stage succeeded and
the returned pending entry is the literal built by `_csv_parse`. -/
theorem parseAfterCoder_ok_inv {env c row p d s e h tg r i cm obj}
    (hok : parseAfterCoder env c row p d s e h tg r i cm = .ok obj) :
    normalizeTags tg ≠ [] ∧
    ∃ project pdate pamount,
      resolveProject env p (issueFor env r i) = .ok project ∧
      parseDate d = some pdate ∧
      parseDecimal (if h = "" then "0" else h) = some pamount ∧
      pyMemB project c.projects = true ∧
      obj = { pk := none
              coder := c.user
              project := project
              date := pdate
              amount := pamount
              start_time := parse_time s TIME_FORMATS
              end_time := parse_time e TIME_FORMATS
              issue := issueFor env r i
              repository := env.repoByName r
              comment := cm
              input_data_json := some (jsonDumps row)
              tags := []
              tags_to_be := normalizeTags tg } := by
  simp only [parseAfterCoder] at hok
  by_cases hne : normalizeTags tg = []
  · rw [if_pos hne] at hok
    cases hok
  · rw [if_neg hne] at hok
    cases hproj : resolveProject env p (issueFor env r i) with
    | error e => rw [hproj] at hok; cases hok
    | ok project =>
      rw [hproj] at hok
      cases hdate : parseDate d with
      | none => rw [hdate] at hok; cases hok
      | some pdate =>
        rw [hdate] at hok
        cases hamount : parseDecimal (if h = "" then "0" else h) with
        | none => rw [hamount] at hok; cases hok
        | some pamount =>
          rw [hamount] at hok
          by_cases hmem : pyMemB project c.projects = true
          · simp only [hmem, if_true] at hok
            exact ⟨hne, project, pdate, pamount, rfl, rfl, rfl, hmem,
              (Except.ok.inj hok).symm⟩
          · simp only [hmem, if_false] at hok
            cases hok

/-- An error coming out of project resolution is one of the three
project-stage failures. -/
theorem resolveProject_error_cases {env p iss e}
    (hk : resolveProject env p iss = .error e) :
    e = .projectNotFound ∨ e = .projectMismatch ∨ e = .projectRequired := by
  unfold resolveProject at hk
  split at hk
  · split at hk
    · exact Or.inl (Except.error.inj hk).symm
    · split at hk
      · split at hk
        · cases hk
        · exact Or.inr (Or.inl (Except.error.inj hk).symm)
      · cases hk
  · split at hk
    · cases hk
    · exact Or.inr (Or.inr (Except.error.inj hk).symm)

/-- Empty normalized tag set: `_csv_parse` raises `AtLeastOneTagRequired`
before anything else is examined. -/
theorem parseAfterCoder_tagRequired {env c row p d s e h tg r i cm}
    (hne : normalizeTags tg = []) :
    parseAfterCoder env c row p d s e h tg r i cm =
      .error .atLeastOneTagRequired := by
  simp [parseAfterCoder, hne]

/-- Project-resolution failures propagate out of `_csv_parse` once the
tag check has passed. -/
theorem parseAfterCoder_projErr {env c row p d s e h tg r i cm e0}
    (hne : normalizeTags tg ≠ []) (hp : resolveProject env p (issueFor env r i) = .error e0) :
    parseAfterCoder env c row p d s e h tg r i cm = .error e0 := by
  simp [parseAfterCoder, hne, hp]

/-- An unauthorized resolved project fails the final assert with
`NotAllowed`, provided every earlier stage passed. -/
theorem parseAfterCoder_notAllowed {env c row p d s e h tg r i cm P pd pa}
    (hne : normalizeTags tg ≠ [])
    (hp : resolveProject env p (issueFor env r i) = .ok P)
    (hd : parseDate d = some pd)
    (ha : parseDecimal (if h = "" then "0" else h) = some pa)
    (hmem : pyMemB P c.projects = false) :
    parseAfterCoder env c row p d s e h tg r i cm = .error .notAllowed := by
  simp [parseAfterCoder, hne, hp, hd, ha, hmem]

/-- `_csv_parse` reports `AtLeastOneTagRequired` exactly on an empty
normalized tag set. -/
theorem parseAfterCoder_tagRequired_iff {env c row p d s e h tg r i cm} :
    parseAfterCoder env c row p d s e h tg r i cm =
        .error .atLeastOneTagRequired ↔
      normalizeTags tg = [] := by
  constructor
  · intro hk
    by_contra hne
    simp only [parseAfterCoder] at hk
    rw [if_neg hne] at hk
    cases hproj : resolveProject env p (issueFor env r i) with
    | error e0 =>
      rw [hproj] at hk
      rcases resolveProject_error_cases hproj with rfl | rfl | rfl <;>
        simp at hk
    | ok project =>
      rw [hproj] at hk
      cases hdate : parseDate d with
      | none => rw [hdate] at hk; simp at hk
      | some pdate =>
        rw [hdate] at hk
        cases hamount : parseDecimal (if h = "" then "0" else h) with
        | none => rw [hamount] at hk; simp at hk
        | some pamount =>
          rw [hamount] at hk
          by_cases hmem : pyMemB project c.projects = true <;>
            simp [hmem] at hk
  · exact parseAfterCoder_tagRequired

/-! ### Helper lemmas about the store operations -/

/-- Inversion of a successful `csv_parse` (any arity): the pending entry
is unsaved, has an empty persisted-tag relation, and a non-empty pending
tag list. -/
theorem csv_parse_ok_inv {env row c obj} (hok : csv_parse env row c = .ok obj) :
    obj.pk = none ∧ obj.tags = [] ∧ obj.tags_to_be ≠ [] := by
  unfold csv_parse at hok
  split at hok
  · obtain ⟨hne, _, _, _, _, _, _, _, hobj⟩ := parseAfterCoder_ok_inv hok
    subst hobj
    exact ⟨rfl, rfl, hne⟩
  · rename_i usr proj date strt end_ hrs tg repo iss comment
    split at hok
    · cases hok
    · obtain ⟨hne, _, _, _, _, _, _, _, hobj⟩ := parseAfterCoder_ok_inv hok
      subst hobj
      exact ⟨rfl, rfl, hne⟩
  · cases hok

/-- Identity matching ignores the extra-field/tag overwrite. -/
theorem matchesIdentity_applyExtrasTags (h0 p q : Hours) :
    matchesIdentity (applyExtrasTags h0 p) q = matchesIdentity h0 q := rfl

/-- Cross-multiplied numeric comparison agrees with equality of the
rational values of two decimals. -/
theorem decimalNumEq_iff (a b : Decimal) :
    decimalNumEq a b = true ↔ decimalVal a = decimalVal b := by
  rw [decimalNumEq, beq_iff_eq, decimalVal, decimalVal,
    div_eq_div_iff (by positivity) (by positivity)]
  constructor
  · intro h2
    exact_mod_cast h2
  · intro h2
    exact_mod_cast h2

/-- A freshly created row matches the identity key it was built from. -/
theorem matchesIdentity_mkFresh (i : Nat) (p : Hours) :
    matchesIdentity (mkFresh i p) p = true := by
  simp [matchesIdentity, mkFresh, decimalNumEq]

/-- Overwriting the extra fields and tags twice with the same parsed
values is the same as doing it once. -/
theorem applyExtrasTags_idem (h0 p : Hours) :
    applyExtrasTags (applyExtrasTags h0 p) p = applyExtrasTags h0 p := rfl

/-- The resolution loop returns the pending names themselves and only
extends the tag table by get-or-create. -/
theorem resolveTags_eq (db : Db) (ns : List String) :
    resolveTags db ns = ({ db with tagNames := addTags db.tagNames ns }, ns) := by
  induction ns generalizing db with
  | nil => simp [resolveTags, addTags]
  | cons n rest ih =>
    simp only [resolveTags, tagGetOrCreate, addTags, List.foldl_cons]
    by_cases hm : n ∈ db.tagNames
    · rw [if_pos hm, if_pos hm, ih]
      simp [addTags]
    · rw [if_neg hm, if_neg hm, ih]
      simp [addTags]

/-- Names already present leave the tag table unchanged. -/
theorem addTags_of_subset {acc : List String} {ns : List String}
    (hsub : ∀ n ∈ ns, n ∈ acc) : addTags acc ns = acc := by
  induction ns with
  | nil => rfl
  | cons n rest ih =>
    have hn : n ∈ acc := hsub n (List.mem_cons_self n rest)
    simp only [addTags, List.foldl_cons, if_pos hn]
    exact ih fun m hm => hsub m (List.mem_cons_of_mem n hm)

/-- Names already in the tag table stay there. -/
theorem addTags_mem_start {acc ns : List String} {n : String} (hn : n ∈ acc) :
    n ∈ addTags acc ns := by
  induction ns generalizing acc with
  | nil => exact hn
  | cons m rest ih =>
    by_cases hm : m ∈ acc
    · simp only [addTags, List.foldl_cons, if_pos hm]
      exact ih hn
    · simp only [addTags, List.foldl_cons, if_neg hm]
      exact ih (List.mem_append_left _ hn)

/-- Every processed name ends up in the tag table. -/
theorem addTags_mem {acc ns : List String} {n : String} (hn : n ∈ ns) :
    n ∈ addTags acc ns := by
  induction ns generalizing acc with
  | nil => cases hn
  | cons m rest ih =>
    rcases List.mem_cons.mp hn with rfl | hn2
    · by_cases hm : n ∈ acc
      · simp only [addTags, List.foldl_cons, if_pos hm]
        exact addTags_mem_start hm
      · simp only [addTags, List.foldl_cons, if_neg hm]
        exact addTags_mem_start (by simp)
    · by_cases hm : m ∈ acc <;>
        simp only [addTags, List.foldl_cons, if_pos, if_neg, hm] <;>
        exact ih hn2

/-- Membership in the extended tag table. -/
theorem addTags_mem_iff {acc ns : List String} {n : String} :
    n ∈ addTags acc ns ↔ n ∈ acc ∨ n ∈ ns := by
  induction ns generalizing acc with
  | nil => simp [addTags]
  | cons m rest ih =>
    by_cases hm : m ∈ acc
    · simp only [addTags, List.foldl_cons, if_pos hm]
      rw [show List.foldl _ acc rest = addTags acc rest from rfl, ih]
      constructor
      · rintro (h | h)
        · exact Or.inl h
        · exact Or.inr (List.mem_cons_of_mem m h)
      · rintro (h | h)
        · exact Or.inl h
        · rcases List.mem_cons.mp h with rfl | h2
          · exact Or.inl hm
          · exact Or.inr h2
    · simp only [addTags, List.foldl_cons, if_neg hm]
      rw [show List.foldl _ (acc ++ [m]) rest = addTags (acc ++ [m]) rest from rfl,
        ih]
      simp only [List.mem_append, List.mem_singleton, List.mem_cons]
      tauto

/-- Get-or-create keeps the tag table duplicate-free. -/
theorem addTags_nodup {acc ns : List String} (h : acc.Nodup) :
    (addTags acc ns).Nodup := by
  induction ns generalizing acc with
  | nil => exact h
  | cons m rest ih =>
    by_cases hm : m ∈ acc
    · simp only [addTags, List.foldl_cons, if_pos hm]
      exact ih h
    · simp only [addTags, List.foldl_cons, if_neg hm]
      refine ih ?_
      simp [List.nodup_append, h, hm]

/-- The assigned relation holds each pending name exactly once. -/
theorem m2mAssign_count (l : List String) (n : String) :
    (m2mAssign l).count n = if n ∈ l then 1 else 0 := by
  have hassign : m2mAssign l = addTags [] l := rfl
  have hnodup : (m2mAssign l).Nodup := by
    rw [hassign]; exact addTags_nodup List.nodup_nil
  have hmem : n ∈ m2mAssign l ↔ n ∈ l := by
    rw [hassign, addTags_mem_iff]; simp
  by_cases hn : n ∈ l
  · rw [if_pos hn]
    exact List.count_eq_one_of_mem hnodup (hmem.mpr hn)
  · rw [if_neg hn]
    exact List.count_eq_zero_of_not_mem (fun hc => hn (hmem.mp hc))

/-- A non-empty pending tag list yields a non-empty relation. -/
theorem m2mAssign_ne_nil {l : List String} (h : l ≠ []) : m2mAssign l ≠ [] := by
  cases l with
  | nil => cases h rfl
  | cons n rest =>
    have hn : n ∈ m2mAssign (n :: rest) := by
      have : m2mAssign (n :: rest) = addTags [] (n :: rest) := rfl
      rw [this]
      exact addTags_mem (List.mem_cons_self n rest)
    exact List.ne_nil_of_mem hn

/-- Searching an appended list when nothing in the prefix matches. -/
theorem find?_skip_unmatched {α} (p : α → Bool) (l1 l2 : List α)
    (h : ∀ x ∈ l1, p x = false) :
    List.find? p (l1 ++ l2) = List.find? p l2 := by
  induction l1 with
  | nil => rfl
  | cons a rest ih =>
    have ha : p a = false := h a (List.mem_cons_self a rest)
    simp only [List.cons_append, List.find?, ha]
    exact ih fun x hx => h x (List.mem_cons_of_mem a hx)

/-- Mapping a list where no element is touched. -/
theorem map_eq_self_of {α} (f : α → α) (l : List α) (h : ∀ x ∈ l, f x = x) :
    l.map f = l := by
  induction l with
  | nil => rfl
  | cons a rest ih =>
    simp only [List.map_cons, h a (List.mem_cons_self a rest)]
    rw [ih fun x hx => h x (List.mem_cons_of_mem a hx)]

/-- Saving an object already stored verbatim at its key changes nothing. -/
theorem dbSave_id {db : Db} {obj : Hours}
    (h : ∀ h2 ∈ db.hours, h2.pk = obj.pk → h2 = obj) : dbSave db obj = db := by
  unfold dbSave
  have : db.hours.map (fun h2 => if h2.pk == obj.pk then obj else h2) = db.hours := by
    refine map_eq_self_of _ _ fun x hx => ?_
    by_cases hpk : x.pk = obj.pk
    · rw [if_pos (by simp [hpk])]
      exact (h x hx hpk).symm
    · rw [if_neg (by simp [hpk])]
  rw [this]

/-- Saving over a row replaces rows untouched in a fresh-append store. -/
theorem map_replace_append (l : List Hours) (x obj : Hours)
    (hne : ∀ h2 ∈ l, (h2.pk == obj.pk) = false) (hx : (x.pk == obj.pk) = true) :
    (l ++ [x]).map (fun h2 => if h2.pk == obj.pk then obj else h2) = l ++ [obj] := by
  induction l with
  | nil =>
    show [if (x.pk == obj.pk) = true then obj else x] = [obj]
    rw [if_pos hx]
  | cons a rest ih =>
    have ha := hne a (List.mem_cons_self a rest)
    have ha2 : (if (a.pk == obj.pk) = true then obj else a) = a :=
      if_neg (by simp [ha])
    simp only [List.cons_append, List.map_cons, ha2]
    rw [ih fun h2 hh => hne h2 (List.mem_cons_of_mem a hh)]

/-- Execution of `csv_get_or_create` when the identity lookup finds an
existing row `h0`: the store keeps its shape, the found row is overwritten
with the parsed extra fields and tag relation and saved at its key, and
`created` is false. -/
theorem import_found {env db row c parsed h0}
    (hp : csv_parse env row c = .ok parsed)
    (hfind : db.hours.find? (fun h2 => matchesIdentity h2 parsed) = some h0) :
    csv_get_or_create env db row c =
      ({ hours := db.hours.map (fun h2 =>
            if h2.pk == h0.pk then applyExtrasTags h0 parsed else h2),
         tagNames := addTags db.tagNames parsed.tags_to_be,
         nextId := db.nextId },
       .ok (applyExtrasTags h0 parsed, false)) := by
  have htags := (csv_parse_ok_inv hp).2.2
  simp only [csv_get_or_create, hp]
  rw [if_neg htags]
  simp only [hoursGetOrCreate, hfind, resolveTags_eq]
  rfl

/-- Execution of `csv_get_or_create` when the identity lookup misses: a
fresh row is created from the identity fields, overwritten with the
parsed extra fields and tag relation, and appended; `created` is true.
The freshness hypothesis keeps the save from touching existing rows. -/
theorem import_created {env db row c parsed}
    (hp : csv_parse env row c = .ok parsed)
    (hfind : db.hours.find? (fun h2 => matchesIdentity h2 parsed) = none)
    (hpk : ∀ h2 ∈ db.hours, h2.pk ≠ some db.nextId) :
    csv_get_or_create env db row c =
      ({ hours := db.hours ++ [importedFresh db.nextId parsed],
         tagNames := addTags db.tagNames parsed.tags_to_be,
         nextId := db.nextId + 1 },
       .ok (importedFresh db.nextId parsed, true)) := by
  have htags := (csv_parse_ok_inv hp).2.2
  simp only [csv_get_or_create, hp]
  rw [if_neg htags]
  simp only [hoursGetOrCreate, hfind, resolveTags_eq]
  unfold dbSave
  have hrepl := map_replace_append db.hours (mkFresh db.nextId parsed)
    (importedFresh db.nextId parsed)
    (fun h2 hh => by
      have := hpk h2 hh
      simp only [importedFresh, applyExtrasTags, mkFresh]
      exact beq_eq_false_iff_ne.mpr (by simpa using this))
    (by simp [importedFresh, applyExtrasTags, mkFresh])
  simp only [importedFresh, applyExtrasTags, mkFresh] at hrepl ⊢
  rw [hrepl]

/-! ### Claim theorems -/

/-- C1: for every row that parses, `csv_get_or_create` finds-or-creates
the persisted entry using exactly the eight identity fields — an
existing entry is reused precisely when some stored row matches the
parsed identity key, and the returned entry itself carries the parsed
identity key — and it unconditionally overwrites the two extra fields
(`end_time`, raw-input JSON) with the freshly parsed values, created or
not, storing the result in place (one row added exactly when no match
existed). -/
theorem c1_dedup_by_identity_fields_overwrites_extras (env : Env)
    (row : List String) (c : Option Coder) (parsed : Hours) (db db' : Db)
    (obj : Hours) (created : Bool)
    (hp : csv_parse env row c = .ok parsed)
    (hwf : Db.WF db)
    (hrun : csv_get_or_create env db row c = (db', .ok (obj, created))) :
    (created = false ↔ db.hours.any (fun h2 => matchesIdentity h2 parsed) = true) ∧
    obj.end_time = parsed.end_time ∧
    obj.input_data_json = parsed.input_data_json ∧
    matchesIdentity obj parsed = true ∧
    obj ∈ db'.hours ∧
    db'.hours.length = db.hours.length + (if created = true then 1 else 0) := by
  cases hfind : db.hours.find? (fun h2 => matchesIdentity h2 parsed) with
  | some h0 =>
    have hexec := (hrun.symm.trans (import_found hp hfind))
    simp only [Prod.mk.injEq, Except.ok.injEq] at hexec
    obtain ⟨hdb, hobj, hcr⟩ := hexec
    subst hdb hobj hcr
    have hmem0 : h0 ∈ db.hours := List.mem_of_find?_eq_some hfind
    have hmatch0 : matchesIdentity h0 parsed = true := by
      have := List.find?_some hfind
      simpa using this
    refine ⟨?_, rfl, rfl, ?_, ?_, ?_⟩
    · exact ⟨fun _ => List.any_eq_true.mpr ⟨h0, hmem0, hmatch0⟩, fun _ => rfl⟩
    · rw [matchesIdentity_applyExtrasTags]
      exact hmatch0
    · exact List.mem_map.mpr ⟨h0, hmem0,
        by rw [if_pos (by simp : (h0.pk == h0.pk) = true)]⟩
    · simp
  | none =>
    have hpk : ∀ h2 ∈ db.hours, h2.pk ≠ some db.nextId := by
      intro h2 hh heq
      obtain ⟨i, hpk2, hlt⟩ := hwf.1 h2 hh
      rw [hpk2] at heq
      exact absurd (Option.some.inj heq) (Nat.ne_of_lt hlt)
    have hexec := (hrun.symm.trans (import_created hp hfind hpk))
    simp only [Prod.mk.injEq, Except.ok.injEq] at hexec
    obtain ⟨hdb, hobj, hcr⟩ := hexec
    subst hdb hobj hcr
    have hnone : ∀ x ∈ db.hours, ¬ (matchesIdentity x parsed = true) :=
      List.find?_eq_none.mp hfind
    refine ⟨?_, rfl, rfl, ?_, ?_, ?_⟩
    · constructor
      · intro h
        cases h
      · intro h
        obtain ⟨x, hx, hpx⟩ := List.any_eq_true.mp h
        exact absurd hpx (hnone x hx)
    · rw [importedFresh, matchesIdentity_applyExtrasTags]
      exact matchesIdentity_mkFresh _ _
    · exact List.mem_append_right _ (List.mem_singleton.mpr rfl)
    · simp

/-- C1 witness: importing the section-8 example row into the empty store
instantiates the dedup/overwrite theorem. -/
theorem c1_witness :
    (exCreated1 = false ↔
      exDb0.hours.any (fun h2 => matchesIdentity h2 exParsed) = true) ∧
    exObj1.end_time = exParsed.end_time ∧
    exObj1.input_data_json = exParsed.input_data_json ∧
    matchesIdentity exObj1 exParsed = true ∧
    exObj1 ∈ exDb1.hours ∧
    exDb1.hours.length = exDb0.hours.length + (if exCreated1 = true then 1 else 0) :=
  c1_dedup_by_identity_fields_overwrites_extras exEnv exRow (some exCoder)
    exParsed exDb0 exDb1 exObj1 exCreated1 rfl
    (by constructor <;> simp [Db.WF, exDb0]) rfl

/-- C2: importing a valid row twice in sequence, starting from a
well-formed store holding no matching record, yields `created = true` on
the first call and `created = false` on the second, both calls return the
same stored record, the store after the second call is the store after
the first, and the stored extra fields equal the (second) import's parsed
values. -/
theorem c2_reimport_is_idempotent (env : Env) (row : List String)
    (c : Option Coder) (parsed : Hours) (db db₁ : Db) (obj₁ : Hours)
    (created₁ : Bool)
    (hp : csv_parse env row c = .ok parsed)
    (hwf : Db.WF db)
    (hnone : db.hours.any (fun h2 => matchesIdentity h2 parsed) = false)
    (hrun1 : csv_get_or_create env db row c = (db₁, .ok (obj₁, created₁))) :
    created₁ = true ∧
    csv_get_or_create env db₁ row c = (db₁, .ok (obj₁, false)) ∧
    obj₁.end_time = parsed.end_time ∧
    obj₁.input_data_json = parsed.input_data_json := by
  have hforall : ∀ x ∈ db.hours, ¬ (matchesIdentity x parsed = true) := by
    intro x hx hpx
    have h2 : db.hours.any (fun h2 => matchesIdentity h2 parsed) = true :=
      List.any_eq_true.mpr ⟨x, hx, hpx⟩
    rw [hnone] at h2
    cases h2
  have hfind : db.hours.find? (fun h2 => matchesIdentity h2 parsed) = none :=
    List.find?_eq_none.mpr hforall
  have hpk : ∀ h2 ∈ db.hours, h2.pk ≠ some db.nextId := by
    intro h2 hh heq
    obtain ⟨i, hpk2, hlt⟩ := hwf.1 h2 hh
    rw [hpk2] at heq
    exact absurd (Option.some.inj heq) (Nat.ne_of_lt hlt)
  have hexec := (hrun1.symm.trans (import_created hp hfind hpk))
  simp only [Prod.mk.injEq, Except.ok.injEq] at hexec
  obtain ⟨hdb, hobj, hcr⟩ := hexec
  subst hdb hobj hcr
  refine ⟨rfl, ?_, rfl, rfl⟩
  have hmatchF : matchesIdentity (importedFresh db.nextId parsed) parsed = true := by
    rw [importedFresh, matchesIdentity_applyExtrasTags]
    exact matchesIdentity_mkFresh _ _
  have hfind2 : (db.hours ++ [importedFresh db.nextId parsed]).find?
      (fun h2 => matchesIdentity h2 parsed) = some (importedFresh db.nextId parsed) := by
    rw [find?_skip_unmatched _ _ _ (fun x hx => by
      have := hforall x hx
      exact Bool.eq_false_iff.mpr (fun hc => this hc))]
    simp [List.find?, hmatchF]
  have himport2 := @import_found env
    ⟨db.hours ++ [importedFresh db.nextId parsed],
     addTags db.tagNames parsed.tags_to_be, db.nextId + 1⟩
    row c parsed (importedFresh db.nextId parsed) hp hfind2
  rw [himport2]
  have hidem : applyExtrasTags (importedFresh db.nextId parsed) parsed =
      importedFresh db.nextId parsed := applyExtrasTags_idem _ _
  have htagsub : addTags (addTags db.tagNames parsed.tags_to_be) parsed.tags_to_be =
      addTags db.tagNames parsed.tags_to_be :=
    addTags_of_subset fun n hn => addTags_mem hn
  simp only [hidem, htagsub]
  have hmapid : (db.hours ++ [importedFresh db.nextId parsed]).map
      (fun h2 => if h2.pk == (importedFresh db.nextId parsed).pk
                 then importedFresh db.nextId parsed else h2) =
      db.hours ++ [importedFresh db.nextId parsed] := by
    refine map_eq_self_of _ _ fun x hx => ?_
    rcases List.mem_append.mp hx with hxl | hxr
    · rw [if_neg]
      simp only [importedFresh, applyExtrasTags, mkFresh]
      exact (by simpa using hpk x hxl)
    · rw [List.mem_singleton.mp hxr, if_pos (by simp)]
  rw [hmapid]

/-- C2 witness: the example row imported twice into the empty store. -/
theorem c2_witness :
    exCreated1 = true ∧
    csv_get_or_create exEnv exDb1 exRow (some exCoder) =
      (exDb1, .ok (exObj1, false)) ∧
    exObj1.end_time = exParsed.end_time ∧
    exObj1.input_data_json = exParsed.input_data_json :=
  c2_reimport_is_idempotent exEnv exRow (some exCoder) exParsed exDb0 exDb1
    exObj1 exCreated1 rfl (by constructor <;> simp [Db.WF, exDb0]) rfl rfl

/-- Returned value of the import for a row that parses, with the store
abstracted away: the entry is the fetched-or-created row after both
overwrite stages. -/
theorem import_snd {env db row c parsed}
    (hp : csv_parse env row c = .ok parsed) :
    (csv_get_or_create env db row c).2 =
      (match db.hours.find? (fun h2 => matchesIdentity h2 parsed) with
       | some h0 => .ok (applyExtrasTags h0 parsed, false)
       | none => .ok (applyExtrasTags (mkFresh db.nextId parsed) parsed, true)) := by
  have htags := (csv_parse_ok_inv hp).2.2
  simp only [csv_get_or_create, hp]
  rw [if_neg htags]
  cases hfind : db.hours.find? (fun h2 => matchesIdentity h2 parsed) with
  | some h0 =>
    simp only [hoursGetOrCreate, hfind, resolveTags_eq]
    rfl
  | none =>
    simp only [hoursGetOrCreate, hfind, resolveTags_eq]
    rfl

/-- A successful import presupposes a successful parse. -/
theorem import_ok_inv {env db row c v}
    (hk : (csv_get_or_create env db row c).2 = .ok v) :
    ∃ parsed, csv_parse env row c = .ok parsed := by
  unfold csv_get_or_create at hk
  cases hparse : csv_parse env row c with
  | error e => rw [hparse] at hk; cases hk
  | ok parsed =>
    exact ⟨parsed, rfl⟩

/-- C4: the import leaves no partial-success state.  Failures all happen
before the store is touched, so an unsuccessful call returns the store
unchanged; a successful call returns an entry whose in-memory assembly is
complete — identity fields from the parse, both extra fields overwritten
from the parse, and a non-empty resolved tag relation. -/
theorem c4_failure_leaves_store_unchanged (env : Env) (db : Db) (row : List String)
    (c : Option Coder) :
    ((csv_get_or_create env db row c).2.isOk = false →
      (csv_get_or_create env db row c).1 = db) ∧
    (∀ parsed obj created,
      csv_parse env row c = .ok parsed →
      (csv_get_or_create env db row c).2 = .ok (obj, created) →
      obj.end_time = parsed.end_time ∧
      obj.input_data_json = parsed.input_data_json ∧
      obj.tags = m2mAssign parsed.tags_to_be ∧
      obj.tags ≠ [] ∧
      matchesIdentity obj parsed = true) := by
  constructor
  · intro hfail
    cases hparse : csv_parse env row c with
    | error e => simp [csv_get_or_create, hparse]
    | ok parsed =>
      by_cases htags : parsed.tags_to_be = []
      · simp [csv_get_or_create, hparse, htags]
      · exfalso
        rw [import_snd hparse] at hfail
        cases hfind : db.hours.find? (fun h2 => matchesIdentity h2 parsed) with
        | some h0 => rw [hfind] at hfail; cases hfail
        | none => rw [hfind] at hfail; cases hfail
  · intro parsed obj created hp hsnd
    have htags := (csv_parse_ok_inv hp).2.2
    rw [import_snd hp] at hsnd
    cases hfind : db.hours.find? (fun h2 => matchesIdentity h2 parsed) with
    | some h0 =>
      rw [hfind] at hsnd
      obtain ⟨hobj, -⟩ := Prod.mk.injEq _ _ _ _ ▸ Except.ok.inj hsnd
      subst hobj
      have hmatch0 : matchesIdentity h0 parsed = true := by
        have := List.find?_some hfind
        simpa using this
      exact ⟨rfl, rfl, rfl, m2mAssign_ne_nil htags,
        by rw [matchesIdentity_applyExtrasTags]; exact hmatch0⟩
    | none =>
      rw [hfind] at hsnd
      obtain ⟨hobj, -⟩ := Prod.mk.injEq _ _ _ _ ▸ Except.ok.inj hsnd
      subst hobj
      exact ⟨rfl, rfl, rfl, m2mAssign_ne_nil htags,
        by rw [matchesIdentity_applyExtrasTags]; exact matchesIdentity_mkFresh _ _⟩

/-- C4 witness: a failing import (all-whitespace tags) leaves the empty
store untouched, and the successful example import returns a fully
assembled entry. -/
theorem c4_witness :
    (csv_get_or_create exEnv exDb0 exRowNoTags (some exCoder)).1 = exDb0 ∧
    (exObj1.end_time = exParsed.end_time ∧
     exObj1.input_data_json = exParsed.input_data_json ∧
     exObj1.tags = m2mAssign exParsed.tags_to_be ∧
     exObj1.tags ≠ [] ∧
     matchesIdentity exObj1 exParsed = true) :=
  ⟨(c4_failure_leaves_store_unchanged exEnv exDb0 exRowNoTags (some exCoder)).1 rfl,
   (c4_failure_leaves_store_unchanged exEnv exDb0 exRow (some exCoder)).2 exParsed exObj1
     exCreated1 rfl rfl⟩

/-- C5: tag handling in `_csv_parse`.  The tags field is normalized by
splitting on commas, stripping, lowercasing and dropping empty pieces
(first conjunct, by definition); the parse raises `AtLeastOneTagRequired`
exactly when that normalized collection is empty; and on success no tag
is persisted — the entry is unsaved with an empty tag relation, carrying
the names only as the pending in-memory `_tags_to_be` list. -/
theorem c5_tag_normalization_and_requirement (env : Env) (c : Coder)
    (p d s e h tg r i cm : String) :
    normalizeTags tg =
      ((splitComma tg.toList).map
        (fun x => String.mk (asciiLower (pyStrip x)))).filter (fun x => x ≠ "") ∧
    (csv_parse env [p, d, s, e, h, tg, r, i, cm] (some c) =
        .error .atLeastOneTagRequired ↔ normalizeTags tg = []) ∧
    (∀ obj, csv_parse env [p, d, s, e, h, tg, r, i, cm] (some c) = .ok obj →
      obj.tags_to_be = normalizeTags tg ∧ obj.tags = [] ∧ obj.pk = none) := by
  refine ⟨rfl, ?_, ?_⟩
  · show parseAfterCoder env c _ p d s e h tg r i cm =
        .error .atLeastOneTagRequired ↔ normalizeTags tg = []
    exact parseAfterCoder_tagRequired_iff
  · intro obj hok
    obtain ⟨hne, _, _, _, _, _, _, _, hobj⟩ := parseAfterCoder_ok_inv hok
    subst hobj
    exact ⟨rfl, rfl, rfl⟩

/-- C5 witness: the all-whitespace tags field fails with
`AtLeastOneTagRequired`, and the example row's pending tags are the
normalized list. -/
theorem c5_witness :
    csv_parse exEnv ["Acme", "2024-03-01", "", "", "", " , ", "", "", ""]
        (some exCoder) = .error .atLeastOneTagRequired ∧
    exParsed.tags_to_be = normalizeTags "dev,urgent" :=
  ⟨((c5_tag_normalization_and_requirement exEnv exCoder "Acme" "2024-03-01"
      "" "" "" " , " "" "" "").2.1).mpr (by decide),
   ((c5_tag_normalization_and_requirement exEnv exCoder "Acme" "2024-03-01"
      "09:00" "17:00" "8.00" "dev,urgent" "repo-x" "42" "").2.2 exParsed
      rfl).1⟩

/-- Inversion of a successful project resolution: the result is the
explicit lookup when a name was given (the `a or b` expression prefers
`a`), and the issue-derived project otherwise. -/
theorem resolveProject_ok_inv {env p iss P}
    (hk : resolveProject env p iss = .ok P) :
    (p ≠ "" → env.projectByName p = some P) ∧
    (p = "" → iss.bind env.projectOfIssue = some P) := by
  unfold resolveProject at hk
  split at hk
  · rename_i hne
    have hp : p ≠ "" := by
      by_contra hc
      simp [hc] at hne
    refine ⟨fun _ => ?_, fun hc => absurd hc hp⟩
    split at hk
    · cases hk
    · rename_i a ha
      split at hk
      · split at hk
        · rw [ha, Except.ok.inj hk]
        · cases hk
      · rw [ha, Except.ok.inj hk]
  · rename_i hne
    have hp : p = "" := by
      by_contra hc
      rw [if_pos hc] at hne
      cases hne
    refine ⟨fun hc => absurd hp hc, fun _ => ?_⟩
    split at hk
    · rename_i b hb
      rw [hb, Except.ok.inj hk]
    · cases hk

/-- C6 counterexample: a row whose explicit project name resolves to
nothing (and which has no issue) has "neither project resolving", yet the
code fails with the `DoesNotExist` lookup error (`NotFound`), not with
`ProjectRequired` as the claim states. -/
theorem c6_counterexample :
    csv_parse exEnv exRowGhost (some exCoder) = .error .projectNotFound ∧
    CsvError.projectNotFound ≠ CsvError.projectRequired := ⟨rfl, by decide⟩

/-- C6 (amended): once the tag check passes, `_csv_parse` fails with the
assertion-class `ProjectMismatch` when an explicit project and an
issue-derived project both resolve but have different keys; it fails with
`ProjectRequired` exactly when no explicit name is given and no project
derives from the issue (an explicit name whose lookup fails raises the
`NotFound` error `projectNotFound` first); and on success the entry's
project is the one that resolved, the explicit lookup taking precedence. -/
theorem c6_project_resolution (env : Env) (c : Coder)
    (p d s e h tg r i cm : String) (htags : normalizeTags tg ≠ []) :
    (∀ pa pb, p ≠ "" → env.projectByName p = some pa →
      (issueFor env r i).bind env.projectOfIssue = some pb → pa.id ≠ pb.id →
      csv_parse env [p, d, s, e, h, tg, r, i, cm] (some c) =
        .error .projectMismatch) ∧
    (p = "" → (issueFor env r i).bind env.projectOfIssue = none →
      csv_parse env [p, d, s, e, h, tg, r, i, cm] (some c) =
        .error .projectRequired) ∧
    (p ≠ "" → env.projectByName p = none →
      csv_parse env [p, d, s, e, h, tg, r, i, cm] (some c) =
        .error .projectNotFound) ∧
    (∀ obj, csv_parse env [p, d, s, e, h, tg, r, i, cm] (some c) = .ok obj →
      (p ≠ "" → env.projectByName p = some obj.project) ∧
      (p = "" → (issueFor env r i).bind env.projectOfIssue = some obj.project)) := by
  refine ⟨?_, ?_, ?_, ?_⟩
  · intro pa pb hpne hpa hpb hne
    have hres : resolveProject env p (issueFor env r i) = .error .projectMismatch := by
      simp [resolveProject, hpne, hpa, hpb, hne]
    exact parseAfterCoder_projErr htags hres
  · intro hpe hbe
    have hres : resolveProject env p (issueFor env r i) = .error .projectRequired := by
      simp [resolveProject, hpe, hbe]
    exact parseAfterCoder_projErr htags hres
  · intro hpne hpn
    have hres : resolveProject env p (issueFor env r i) = .error .projectNotFound := by
      simp [resolveProject, hpne, hpn]
    exact parseAfterCoder_projErr htags hres
  · intro obj hok
    obtain ⟨_, project, _, _, hres, _, _, _, hobj⟩ := parseAfterCoder_ok_inv hok
    subst hobj
    exact resolveProject_ok_inv hres

/-- C6 witness: the explicit/derived disagreement fails with
`ProjectMismatch`, and a row with no project source at all fails with
`ProjectRequired`. -/
theorem c6_witness :
    csv_parse exEnv exRowMismatch (some exCoder) = .error .projectMismatch ∧
    csv_parse exEnv ["", "2024-03-01", "", "", "", "dev", "", "", ""]
      (some exCoder) = .error .projectRequired :=
  ⟨(c6_project_resolution exEnv exCoder "Acme" "2024-03-01" "" "" "" "dev"
      "repo-y" "7" "" (by decide)).1 acme otherProj (by decide) rfl rfl
      (by decide),
   (c6_project_resolution exEnv exCoder "" "2024-03-01" "" "" "" "dev" "" ""
      "" (by decide)).2.1 rfl rfl⟩

/-- C7: `parse_time` tries the two accepted formats in their source
order — 24-hour `HH:MM` first, then 12-hour `hh:mm:ss AM/PM` — and
returns the first match; an empty string yields `none`, and a non-empty
string matching neither format silently yields `none` (the function is
total — no error value exists). -/
theorem c7_parse_time_two_formats (x : String) :
    TIME_FORMATS = [TimeFmt.h24, TimeFmt.h12ampm] ∧
    (x = "" → parse_time x TIME_FORMATS = none) ∧
    (∀ t, x ≠ "" → tryTimeFormat x .h24 = some t →
      parse_time x TIME_FORMATS = some t) ∧
    (∀ t, x ≠ "" → tryTimeFormat x .h24 = none →
      tryTimeFormat x .h12ampm = some t →
      parse_time x TIME_FORMATS = some t) ∧
    (tryTimeFormat x .h24 = none → tryTimeFormat x .h12ampm = none →
      parse_time x TIME_FORMATS = none) := by
  refine ⟨rfl, ?_, ?_, ?_, ?_⟩
  · intro hx
    simp [parse_time, hx]
  · intro t hx h1
    simp [parse_time, hx, TIME_FORMATS, tryFormatsFirst, h1]
  · intro t hx h1 h2
    simp [parse_time, hx, TIME_FORMATS, tryFormatsFirst, h1, h2]
  · intro h1 h2
    by_cases hx : x = ""
    · simp [parse_time, hx]
    · simp [parse_time, hx, TIME_FORMATS, tryFormatsFirst, h1, h2]

/-- C7 witness: empty string, a 24-hour match, a 12-hour match, and a
non-empty non-match. -/
theorem c7_witness :
    parse_time "" TIME_FORMATS = none ∧
    parse_time "09:00" TIME_FORMATS = some ⟨9, 0, 0⟩ ∧
    parse_time "05:00:00 PM" TIME_FORMATS = some ⟨17, 0, 0⟩ ∧
    parse_time "nonsense" TIME_FORMATS = none :=
  ⟨(c7_parse_time_two_formats "").2.1 rfl,
   (c7_parse_time_two_formats "09:00").2.2.1 ⟨9, 0, 0⟩ (by decide) (by decide),
   (c7_parse_time_two_formats "05:00:00 PM").2.2.2.1 ⟨17, 0, 0⟩ (by decide)
     (by decide) (by decide),
   (c7_parse_time_two_formats "nonsense").2.2.2.2 (by decide) (by decide)⟩

/-- Identity-matching rows agree on the project key. -/
theorem matchesIdentity_project_id {h p : Hours}
    (hm : matchesIdentity h p = true) : h.project.id = p.project.id := by
  simp only [matchesIdentity, Bool.and_eq_true, beq_iff_eq] at hm
  exact hm.1.1.1.1.1.1.2

/-- Python membership in the authorized list compares by key only. -/
theorem pyMemB_congr {p q : Project} (l : List Project) (hpq : p.id = q.id) :
    pyMemB p l = pyMemB q l := by
  simp [pyMemB, hpq]

/-- C8: the authorization invariant.  A pending entry produced by
`_csv_parse` always satisfies `project in coder.projects`; when every
stage up to the final assert succeeds but the resolved project is not in
the coder's authorized list, the parse fails with `NotAllowed`; and every
entry returned by the import satisfies the same membership. -/
theorem c8_project_must_be_authorized (env : Env) (db : Db) (c : Coder)
    (p d s e h tg r i cm : String) :
    (∀ obj, csv_parse env [p, d, s, e, h, tg, r, i, cm] (some c) = .ok obj →
      pyMemB obj.project c.projects = true) ∧
    (∀ P pd pa, normalizeTags tg ≠ [] →
      resolveProject env p (issueFor env r i) = .ok P →
      parseDate d = some pd →
      parseDecimal (if h = "" then "0" else h) = some pa →
      pyMemB P c.projects = false →
      csv_parse env [p, d, s, e, h, tg, r, i, cm] (some c) =
        .error .notAllowed) ∧
    (∀ obj created,
      (csv_get_or_create env db [p, d, s, e, h, tg, r, i, cm] (some c)).2 =
        .ok (obj, created) →
      pyMemB obj.project c.projects = true) := by
  have hparse_mem : ∀ obj,
      csv_parse env [p, d, s, e, h, tg, r, i, cm] (some c) = .ok obj →
      pyMemB obj.project c.projects = true := by
    intro obj hok
    obtain ⟨_, project, _, _, _, _, _, hmem, hobj⟩ := parseAfterCoder_ok_inv hok
    subst hobj
    exact hmem
  refine ⟨hparse_mem, ?_, ?_⟩
  · intro P pd pa htags hres hdate hamount hmem
    exact parseAfterCoder_notAllowed htags hres hdate hamount hmem
  · intro obj created hsnd
    obtain ⟨parsed, hp⟩ := import_ok_inv hsnd
    rw [import_snd hp] at hsnd
    have hparsedmem := hparse_mem parsed hp
    cases hfind : db.hours.find?
        (fun h2 => matchesIdentity h2 parsed) with
    | some h0 =>
      rw [hfind] at hsnd
      obtain ⟨hobj, -⟩ := Prod.mk.injEq _ _ _ _ ▸ Except.ok.inj hsnd
      subst hobj
      have hmatch0 : matchesIdentity h0 parsed = true := by
        have := List.find?_some hfind
        simpa using this
      have hid : (applyExtrasTags h0 parsed).project.id = parsed.project.id :=
        matchesIdentity_project_id
          (by rw [matchesIdentity_applyExtrasTags]; exact hmatch0)
      rw [pyMemB_congr c.projects hid]
      exact hparsedmem
    | none =>
      rw [hfind] at hsnd
      obtain ⟨hobj, -⟩ := Prod.mk.injEq _ _ _ _ ▸ Except.ok.inj hsnd
      subst hobj
      have hid : (applyExtrasTags (mkFresh db.nextId parsed) parsed).project.id =
          parsed.project.id :=
        matchesIdentity_project_id
          (by rw [matchesIdentity_applyExtrasTags]
              exact matchesIdentity_mkFresh _ _)
      rw [pyMemB_congr c.projects hid]
      exact hparsedmem

/-- C8 witness: the example entry's project is authorized for `alice`,
and a row resolving the unauthorized project (via `repo-y` issue `7`)
fails with `NotAllowed`. -/
theorem c8_witness :
    pyMemB exParsed.project exCoder.projects = true ∧
    csv_parse exEnv ["", "2024-03-01", "", "", "", "dev", "repo-y", "7", ""]
      (some exCoder) = .error .notAllowed :=
  ⟨(c8_project_must_be_authorized exEnv exDb0 exCoder "Acme" "2024-03-01"
      "09:00" "17:00" "8.00" "dev,urgent" "repo-x" "42" "").1 exParsed rfl,
   (c8_project_must_be_authorized exEnv exDb0 exCoder "" "2024-03-01" "" ""
      "" "dev" "repo-y" "7" "").2.1 otherProj ⟨2024, 3, 1⟩ ⟨false, 0, 0⟩
      (by decide) rfl rfl rfl (by decide)⟩

/-- C9: `Coder` construction and its non-fatal variant.  With an unknown
username, `Coder.get` fails with the lookup error, and `get_or_none`
propagates it.  With a known user, construction fails with
`NoCoderProjects` exactly when the union of linked projects across the
user's groups is empty; otherwise the wrapper stores that union, computed
at construction.  `get_or_none` swallows exactly the `NoCoderProjects`
failure, returning an empty result. -/
theorem c9_coder_requires_projects (env : Env) (uname : String) :
    (env.userByName uname = none →
      Coder.get env uname = .error .userNotFound ∧
      Coder.get_or_none env uname = .error .userNotFound) ∧
    (∀ u, env.userByName uname = some u →
      (coderProjects u = [] →
        Coder.get env uname = .error .noCoderProjects ∧
        Coder.get_or_none env uname = .ok none) ∧
      (coderProjects u ≠ [] →
        Coder.get env uname = .ok ⟨u, coderProjects u⟩ ∧
        Coder.get_or_none env uname = .ok (some ⟨u, coderProjects u⟩))) := by
  constructor
  · intro hnone
    have hget : Coder.get env uname = .error .userNotFound := by
      simp [Coder.get, hnone]
    exact ⟨hget, by simp [Coder.get_or_none, hget]⟩
  · intro u hu
    constructor
    · intro hempty
      have hget : Coder.get env uname = .error .noCoderProjects := by
        simp [Coder.get, hu, coderNew, hempty]
      exact ⟨hget, by simp [Coder.get_or_none, hget]⟩
    · intro hne
      have hget : Coder.get env uname = .ok ⟨u, coderProjects u⟩ := by
        simp [Coder.get, hu, coderNew, hne]
      exact ⟨hget, by simp [Coder.get_or_none, hget]⟩

/-- C9 witness: `bob` (no groups) fails construction but `get_or_none`
returns empty; `alice` succeeds with her group-union project list; an
unknown username propagates the lookup failure through both entry
points. -/
theorem c9_witness :
    (Coder.get exEnv "bob" = .error .noCoderProjects ∧
     Coder.get_or_none exEnv "bob" = .ok none) ∧
    (Coder.get exEnv "alice" = .ok ⟨aliceUser, coderProjects aliceUser⟩ ∧
     Coder.get_or_none exEnv "alice" =
       .ok (some ⟨aliceUser, coderProjects aliceUser⟩)) ∧
    (Coder.get exEnv "zoe" = .error .userNotFound ∧
     Coder.get_or_none exEnv "zoe" = .error .userNotFound) :=
  ⟨((c9_coder_requires_projects exEnv "bob").2 bobUser rfl).1 (by decide),
   ((c9_coder_requires_projects exEnv "alice").2 aliceUser rfl).2 (by decide),
   (c9_coder_requires_projects exEnv "zoe").1 rfl⟩

/-- Tag-table contents after an import: unchanged on failure, extended by
get-or-create over the pending names on success. -/
theorem import_fst_tagNames (env : Env) (db : Db) (row : List String)
    (c : Option Coder) :
    (csv_get_or_create env db row c).1.tagNames = db.tagNames ∨
    ∃ parsed, csv_parse env row c = .ok parsed ∧
      (csv_get_or_create env db row c).1.tagNames =
        addTags db.tagNames parsed.tags_to_be := by
  cases hparse : csv_parse env row c with
  | error e =>
    left
    simp [csv_get_or_create, hparse]
  | ok parsed =>
    by_cases htags : parsed.tags_to_be = []
    · left
      simp [csv_get_or_create, hparse, htags]
    · right
      refine ⟨parsed, rfl, ?_⟩
      simp only [csv_get_or_create, hparse]
      rw [if_neg htags]
      cases hfind : db.hours.find? (fun h2 => matchesIdentity h2 parsed) with
      | some h0 =>
        simp only [hoursGetOrCreate, hfind, resolveTags_eq]
        rfl
      | none =>
        simp only [hoursGetOrCreate, hfind, resolveTags_eq]
        rfl

/-- C10: duplicate tag names.  The pending entry keeps every normalized
occurrence in order, so serializing the still-unsaved entry repeats the
name in the tags field; the import resolves each name through
get-or-create, so the persisted relation holds each distinct name exactly
once and the tag table stays duplicate-free. -/
theorem c10_duplicate_tags_collapse_on_import (env : Env) (db : Db)
    (c : Coder) (p d s e h tg r i cm n : String) :
    (∀ obj, csv_parse env [p, d, s, e, h, tg, r, i, cm] (some c) = .ok obj →
      obj.tags_to_be = normalizeTags tg ∧
      (csvDumpValues obj true).getD 5 "" = joinWith "," (normalizeTags tg)) ∧
    (∀ obj created,
      (csv_get_or_create env db [p, d, s, e, h, tg, r, i, cm] (some c)).2 =
        .ok (obj, created) →
      obj.tags.count n = if n ∈ normalizeTags tg then 1 else 0) ∧
    (db.tagNames.Nodup →
      (csv_get_or_create env db [p, d, s, e, h, tg, r, i, cm]
        (some c)).1.tagNames.Nodup) := by
  refine ⟨?_, ?_, ?_⟩
  · intro obj hok
    obtain ⟨_, project, pdate, pamount, _, _, _, _, hobj⟩ :=
      parseAfterCoder_ok_inv hok
    subst hobj
    exact ⟨rfl, rfl⟩
  · intro obj created hsnd
    obtain ⟨parsed, hp⟩ := import_ok_inv hsnd
    obtain ⟨_, project, pdate, pamount, _, _, _, _, hobj⟩ :=
      parseAfterCoder_ok_inv hp
    rw [import_snd hp] at hsnd
    have htagsbe : parsed.tags_to_be = normalizeTags tg := by rw [hobj]
    cases hfind : db.hours.find? (fun h2 => matchesIdentity h2 parsed) with
    | some h0 =>
      rw [hfind] at hsnd
      obtain ⟨hobj2, -⟩ := Prod.mk.injEq _ _ _ _ ▸ Except.ok.inj hsnd
      subst hobj2
      show (m2mAssign parsed.tags_to_be).count n = _
      rw [htagsbe, m2mAssign_count]
    | none =>
      rw [hfind] at hsnd
      obtain ⟨hobj2, -⟩ := Prod.mk.injEq _ _ _ _ ▸ Except.ok.inj hsnd
      subst hobj2
      show (m2mAssign parsed.tags_to_be).count n = _
      rw [htagsbe, m2mAssign_count]
  · intro hnodup
    rcases import_fst_tagNames env db [p, d, s, e, h, tg, r, i, cm] (some c)
        with heq | ⟨parsed, _, heq⟩
    · rw [heq]; exact hnodup
    · rw [heq]; exact addTags_nodup hnodup

/-- C10 witness: the tags field `"dev, dev"` keeps both occurrences on
the pending entry and in its serialization, while the imported entry's
relation holds `dev` once and the tag table is duplicate-free. -/
theorem c10_witness :
    (exParsedDup.tags_to_be = normalizeTags "dev, dev" ∧
     (csvDumpValues exParsedDup true).getD 5 "" =
       joinWith "," (normalizeTags "dev, dev")) ∧
    exObjDup.tags.count "dev" =
      (if "dev" ∈ normalizeTags "dev, dev" then 1 else 0) ∧
    (csv_get_or_create exEnv exDb0 exRowDupTags (some exCoder)).1.tagNames.Nodup :=
  ⟨(c10_duplicate_tags_collapse_on_import exEnv exDb0 exCoder "Acme"
      "2024-03-01" "" "" "1.5" "dev, dev" "" "" "" "dev").1 exParsedDup rfl,
   (c10_duplicate_tags_collapse_on_import exEnv exDb0 exCoder "Acme"
      "2024-03-01" "" "" "1.5" "dev, dev" "" "" "" "dev").2.1 exObjDup
      exCreatedDup rfl,
   (c10_duplicate_tags_collapse_on_import exEnv exDb0 exCoder "Acme"
      "2024-03-01" "" "" "1.5" "dev, dev" "" "" "" "dev").2.2 (by decide)⟩

/-- C3 counterexample: the row with tags field `"Dev"` parses, but its
serialization lowercases the tag, so the output differs from the input in
a field other than the amount — the round-trip property as stated fails. -/
theorem c3_counterexample :
    ¬ roundTripModAmount exEnv exCoder exRowUpperTag := fun hrt =>
  absurd (hrt exObjUpper rfl) (by decide)

/-- C3 (amended): for rows already in the codec's canonical form — an
explicit project name whose lookup returns a project carrying that name,
a date that reformats to itself, time fields that reformat to themselves
(empty, or zero-padded 24-hour `HH:MM` other than midnight), a tags field
equal to the comma-join of its own normalization, a repository field
equal to the resolved repository's distinct name (or empty when none
resolves), and an issue field equal to the resolved issue's number (or
empty when none resolves) — serializing the parsed entry reproduces the
input row field-for-field, the raw-input blob being dropped and the
decimal amount being normalized. -/
theorem c3_roundtrip_for_canonical_rows (env : Env) (c : Coder)
    (p d s e h tg r i cm : String) (obj : Hours) (dd : Date)
    (hok : csv_parse env [p, d, s, e, h, tg, r, i, cm] (some c) = .ok obj)
    (hpne : p ≠ "")
    (hpname : ∀ P, env.projectByName p = some P → P.name = p)
    (hdate : parseDate d = some dd)
    (hyear : 1900 ≤ dd.year)
    (hdfmt : formatDate dd = d)
    (hstrt : frmtTime (parse_time s TIME_FORMATS) = s)
    (hend : frmtTime (parse_time e TIME_FORMATS) = e)
    (htg : joinWith "," (normalizeTags tg) = tg)
    (hrepo : (match env.repoByName r with
              | some rep => rep.distinct_name
              | none => "") = r)
    (hiss : (match issueFor env r i with
             | some is0 => Nat.repr is0.number
             | none => "") = i) :
    csvDumpValues obj true = [p, d, s, e, decimalStr obj.amount, tg, r, i, cm] := by
  obtain ⟨_, project, pdate, pamount, hres, hpdate, _, _, hobj⟩ :=
    parseAfterCoder_ok_inv hok
  have hproj : env.projectByName p = some project :=
    (resolveProject_ok_inv hres).1 hpne
  have hname : project.name = p := hpname project hproj
  have hdd : pdate = dd := by
    rw [hdate] at hpdate
    exact (Option.some.inj hpdate).symm
  subst hobj
  subst hdd
  simp only [csvDumpValues, Option.isSome_none, Bool.false_eq_true, if_false]
  rw [hname, hdfmt, hstrt, hend, htg, hrepo, hiss]
  simp

/-- C3 witness: the canonical example row round-trips through parse and
serialize with only the amount field renormalized. -/
theorem c3_witness :
    csvDumpValues exParsed true =
      ["Acme", "2024-03-01", "09:00", "17:00", decimalStr exParsed.amount,
       "dev,urgent", "repo-x", "42", ""] :=
  c3_roundtrip_for_canonical_rows exEnv exCoder "Acme" "2024-03-01" "09:00"
    "17:00" "8.00" "dev,urgent" "repo-x" "42" "" exParsed ⟨2024, 3, 1⟩ rfl
    (by decide)
    (fun P hP => by cases Option.some.inj hP; rfl)
    rfl (by decide) (by decide) (by decide) (by decide) (by decide) rfl rfl

/-- Concrete run of the spec's section-8 example: re-importing the
example row with only the end time changed (17:00 to 18:00) into the
store produced by the first import touches the single stored record in
place — the store still holds one row, the returned entry is that row
(key 0) with its end time now 18:00, and `created` is false. -/
theorem end_time_reimport_updates_in_place :
    (csv_get_or_create exEnv exDb1 exRowEnd18 (some exCoder)).1.hours.length = 1 ∧
    ((csv_get_or_create exEnv exDb1 exRowEnd18 (some exCoder)).2.map
      (fun v => (v.1.pk, v.1.end_time, v.2))).toOption =
      some (some 0, some ⟨18, 0, 0⟩, false) := ⟨by decide, by decide⟩
